import Mathlib

/-!
Verification development for the plan-gated spreadsheet backend
(server/app.js, server/policies.js, server/routes/excel.js).

The backend is shallowly embedded: route handlers become pure functions on an
explicit server state (object storage, audit table, profile/payment tables),
worksheets become finite grids of optional scalar values, and external
collaborators (the spreadsheet library, HMAC, JSON parsing, randomness) are
abstracted as parameters or modelled from the specification where noted.
-/

/-- A scalar cell value as carried by the JSON body / spreadsheet library:
a string or a number.  A null cell is `Option.none` at the `Cell` level. -/
inductive Value
  | str (s : String)
  | num (n : Int)
  deriving DecidableEq, Repr

/-- A cell slot: `none` models JavaScript null/undefined. -/
abbrev Cell := Option Value

/-- The cell contents of a worksheet: row-major, 0-indexed list of rows
(rows may have different lengths; absent positions read as null). -/
abbrev Grid := List (List Cell)

/-- Reading cell `c` of a single row: out-of-range positions are null,
mirroring `row[c] ?? null` and ExcelJS cells that were never assigned. -/
def rowCellAt (row : List Cell) (c : Nat) : Cell :=
  row.getD c none

/-- Reading cell `(r, c)` of a grid (0-indexed). -/
def cellAt (g : Grid) (r c : Nat) : Cell :=
  rowCellAt (g.getD r []) c

/-- Writing cell `c` of a row, padding with nulls as the ExcelJS call
`row.getCell(c+1)` materialises intermediate cells. -/
def setRowCell (row : List Cell) (c : Nat) (v : Cell) : List Cell :=
  (row ++ List.replicate (c + 1 - row.length) none).set c v

/-- Writing cell `(r, c)` of a grid, materialising intermediate rows as the
ExcelJS call `ws.getRow(r+1)` does. -/
def setCell (g : Grid) (r c : Nat) (v : Cell) : Grid :=
  (g ++ List.replicate (r + 1 - g.length) ([] : List Cell)).set r
    (setRowCell ((g ++ List.replicate (r + 1 - g.length) ([] : List Cell)).getD r []) c v)

theorem rowCellAt_setRowCell (row : List Cell) (c : Nat) (v : Cell) (d : Nat) :
    rowCellAt (setRowCell row c v) d = if d = c then v else rowCellAt row d := by
  have hlen : c < (row ++ List.replicate (c + 1 - row.length) none).length := by
    simp only [List.length_append, List.length_replicate]; omega
  unfold rowCellAt setRowCell
  rw [List.getD_eq_getElem?_getD, List.getD_eq_getElem?_getD, List.getElem?_set]
  by_cases h : c = d
  · rw [if_pos h, if_pos hlen, if_pos h.symm]; rfl
  · rw [if_neg h, if_neg (fun hh => h hh.symm), List.getElem?_append]
    by_cases hd : d < row.length
    · rw [if_pos hd]
    · rw [if_neg hd, List.getElem?_replicate, List.getElem?_eq_none (le_of_not_lt hd)]
      by_cases hr : d - row.length < c + 1 - row.length
      · rw [if_pos hr]; rfl
      · rw [if_neg hr]

theorem cellAt_setCell (g : Grid) (r c : Nat) (v : Cell) (a b : Nat) :
    cellAt (setCell g r c v) a b = if a = r ∧ b = c then v else cellAt g a b := by
  have hlen : r < (g ++ List.replicate (r + 1 - g.length) ([] : List Cell)).length := by
    simp only [List.length_append, List.length_replicate]; omega
  have hpad : ∀ d : Nat,
      ((g ++ List.replicate (r + 1 - g.length) ([] : List Cell))[d]?).getD [] = g.getD d [] := by
    intro d
    rw [List.getD_eq_getElem?_getD, List.getElem?_append]
    by_cases hd : d < g.length
    · rw [if_pos hd]
    · rw [if_neg hd, List.getElem?_replicate, List.getElem?_eq_none (le_of_not_lt hd)]
      by_cases hr : d - g.length < r + 1 - g.length
      · rw [if_pos hr]; rfl
      · rw [if_neg hr]
  unfold cellAt setCell
  rw [List.getD_eq_getElem?_getD, List.getElem?_set]
  by_cases ha : r = a
  · subst ha
    rw [if_pos rfl, if_pos hlen]
    simp only [Option.getD_some]
    rw [rowCellAt_setRowCell]
    have h2 : (g ++ List.replicate (r + 1 - g.length) ([] : List Cell)).getD r [] =
        g.getD r [] := by
      rw [List.getD_eq_getElem?_getD]; exact hpad r
    rw [h2]
    by_cases hb : b = c
    · simp [hb]
    · simp [hb]
  · rw [if_neg ha, if_neg (by tauto)]
    rw [hpad a]

@[simp] theorem rowCellAt_nil (c : Nat) : rowCellAt [] c = none := rfl

@[simp] theorem rowCellAt_cons_zero (x : Cell) (rest : List Cell) :
    rowCellAt (x :: rest) 0 = x := rfl

@[simp] theorem rowCellAt_cons_succ (x : Cell) (rest : List Cell) (c : Nat) :
    rowCellAt (x :: rest) (c + 1) = rowCellAt rest c := rfl

@[simp] theorem cellAt_nil (r c : Nat) : cellAt [] r c = none := by
  cases r <;> rfl

@[simp] theorem cellAt_cons_zero (row : List Cell) (rest : Grid) (c : Nat) :
    cellAt (row :: rest) 0 c = rowCellAt row c := rfl

@[simp] theorem cellAt_cons_succ (row : List Cell) (rest : Grid) (r c : Nat) :
    cellAt (row :: rest) (r + 1) c = cellAt rest r c := rfl

/-- Modelled from the spec: the used column extent of a single row — the
position after the last non-null cell (ExcelJS-style actual cell extent). -/
def usedCols : List Cell → Nat
  | [] => 0
  | x :: rest =>
    if usedCols rest = 0 then (if x.isSome then 1 else 0) else usedCols rest + 1

/-- Modelled from the spec: `actualRowCount`, the actual used row
extent — the position after the last row containing a non-null cell. -/
def usedRows : Grid → Nat
  | [] => 0
  | row :: rest =>
    if usedRows rest = 0 then (if usedCols row = 0 then 0 else 1) else usedRows rest + 1

/-- Modelled from the spec: `actualColumnCount`, the actual used column
extent of the sheet over all rows. -/
def usedColsGrid : Grid → Nat
  | [] => 0
  | row :: rest => max (usedCols row) (usedColsGrid rest)

theorem usedCols_eq_zero {row : List Cell} :
    usedCols row = 0 ↔ ∀ c, rowCellAt row c = none := by
  induction row with
  | nil => simp [usedCols]
  | cons x rest ih =>
    constructor
    · intro h c
      rw [usedCols] at h
      by_cases hu : usedCols rest = 0
      · rw [if_pos hu] at h
        have hx : ¬ x.isSome := by
          intro hs; rw [if_pos hs] at h; omega
        cases c with
        | zero =>
          simp only [rowCellAt_cons_zero]
          cases x with
          | none => rfl
          | some v => simp at hx
        | succ k => simpa using (ih.mp hu) k
      · rw [if_neg hu] at h; omega
    · intro h
      have hx : x = none := by simpa using h 0
      have hrest : usedCols rest = 0 := ih.mpr (fun c => by simpa using h (c + 1))
      rw [usedCols, if_pos hrest, hx]
      rfl

theorem rowCellAt_eq_none_of_usedCols_le {row : List Cell} {c : Nat}
    (h : usedCols row ≤ c) : rowCellAt row c = none := by
  induction row generalizing c with
  | nil => simp
  | cons x rest ih =>
    rw [usedCols] at h
    by_cases hu : usedCols rest = 0
    · rw [if_pos hu] at h
      by_cases hx : x.isSome
      · rw [if_pos hx] at h
        cases c with
        | zero => omega
        | succ k => simpa using ih (by omega)
      · cases c with
        | zero =>
          simp only [rowCellAt_cons_zero]
          cases x with
          | none => rfl
          | some v => simp at hx
        | succ k => simpa using ih (by omega)
    · rw [if_neg hu] at h
      cases c with
      | zero => omega
      | succ k => simpa using ih (by omega)

theorem rowCellAt_usedCols_sub_one {row : List Cell}
    (h : usedCols row ≠ 0) : rowCellAt row (usedCols row - 1) ≠ none := by
  induction row with
  | nil => simp [usedCols] at h
  | cons x rest ih =>
    rw [usedCols] at h ⊢
    by_cases hu : usedCols rest = 0
    · rw [if_pos hu] at h ⊢
      by_cases hx : x.isSome
      · rw [if_pos hx]
        simpa using Option.isSome_iff_ne_none.mp hx
      · rw [if_neg hx] at h; omega
    · rw [if_neg hu] at h ⊢
      have hs : usedCols rest + 1 - 1 = (usedCols rest - 1) + 1 := by omega
      rw [hs, rowCellAt_cons_succ]
      exact ih hu

theorem usedRows_eq_zero {g : Grid} :
    usedRows g = 0 ↔ ∀ r c, cellAt g r c = none := by
  induction g with
  | nil => simp [usedRows]
  | cons row rest ih =>
    constructor
    · intro h r c
      rw [usedRows] at h
      by_cases hu : usedRows rest = 0
      · rw [if_pos hu] at h
        have hrow : usedCols row = 0 := by
          by_contra hh; rw [if_neg hh] at h; omega
        cases r with
        | zero => simpa using usedCols_eq_zero.mp hrow c
        | succ k => simpa using (ih.mp hu) k c
      · rw [if_neg hu] at h; omega
    · intro h
      have hrow : usedCols row = 0 := usedCols_eq_zero.mpr (fun c => by simpa using h 0 c)
      have hrest : usedRows rest = 0 := ih.mpr (fun r c => by simpa using h (r + 1) c)
      rw [usedRows, if_pos hrest, if_pos hrow]

theorem cellAt_eq_none_of_usedRows_le {g : Grid} {r : Nat}
    (h : usedRows g ≤ r) (c : Nat) : cellAt g r c = none := by
  induction g generalizing r with
  | nil => simp
  | cons row rest ih =>
    rw [usedRows] at h
    by_cases hu : usedRows rest = 0
    · rw [if_pos hu] at h
      by_cases hrow : usedCols row = 0
      · cases r with
        | zero => simpa using usedCols_eq_zero.mp hrow c
        | succ k => simpa using usedRows_eq_zero.mp hu k c
      · rw [if_neg hrow] at h
        cases r with
        | zero => omega
        | succ k => simpa using usedRows_eq_zero.mp hu k c
    · rw [if_neg hu] at h
      cases r with
      | zero => omega
      | succ k => simpa using ih (by omega)

theorem exists_cellAt_usedRows_sub_one {g : Grid}
    (h : usedRows g ≠ 0) : ∃ c, cellAt g (usedRows g - 1) c ≠ none := by
  induction g with
  | nil => simp [usedRows] at h
  | cons row rest ih =>
    rw [usedRows] at h ⊢
    by_cases hu : usedRows rest = 0
    · rw [if_pos hu] at h ⊢
      by_cases hrow : usedCols row = 0
      · rw [if_pos hrow] at h; omega
      · rw [if_neg hrow]
        exact ⟨usedCols row - 1, by simpa using rowCellAt_usedCols_sub_one hrow⟩
    · rw [if_neg hu] at h ⊢
      obtain ⟨c, hc⟩ := ih hu
      refine ⟨c, ?_⟩
      have hs : usedRows rest + 1 - 1 = (usedRows rest - 1) + 1 := by omega
      rw [hs, cellAt_cons_succ]
      exact hc

theorem cellAt_eq_none_of_usedColsGrid_le {g : Grid} {c : Nat}
    (h : usedColsGrid g ≤ c) (r : Nat) : cellAt g r c = none := by
  induction g generalizing r with
  | nil => simp
  | cons row rest ih =>
    rw [usedColsGrid] at h
    cases r with
    | zero =>
      simpa using rowCellAt_eq_none_of_usedCols_le (le_trans (le_max_left _ _) h)
    | succ k => simpa using ih (le_trans (le_max_right _ _) h) k

theorem exists_cellAt_usedColsGrid_sub_one {g : Grid}
    (h : usedColsGrid g ≠ 0) : ∃ r, cellAt g r (usedColsGrid g - 1) ≠ none := by
  induction g with
  | nil => simp [usedColsGrid] at h
  | cons row rest ih =>
    rw [usedColsGrid] at h ⊢
    rcases le_total (usedCols row) (usedColsGrid rest) with hmax | hmax
    · rw [max_eq_right hmax] at h ⊢
      obtain ⟨r, hr⟩ := ih h
      exact ⟨r + 1, by simpa using hr⟩
    · rw [max_eq_left hmax] at h ⊢
      exact ⟨0, by simpa using rowCellAt_usedCols_sub_one h⟩

theorem lt_usedRows_of_cellAt_ne_none {g : Grid} {r c : Nat}
    (h : cellAt g r c ≠ none) : r < usedRows g := by
  by_contra hh
  exact h (cellAt_eq_none_of_usedRows_le (by omega) c)

theorem lt_usedColsGrid_of_cellAt_ne_none {g : Grid} {r c : Nat}
    (h : cellAt g r c ≠ none) : c < usedColsGrid g := by
  by_contra hh
  exact h (cellAt_eq_none_of_usedColsGrid_le (by omega) r)

theorem usedRows_le_of_forall_none {g : Grid} {n : Nat}
    (h : ∀ r c, n ≤ r → cellAt g r c = none) : usedRows g ≤ n := by
  by_contra hh
  obtain ⟨c, hc⟩ := exists_cellAt_usedRows_sub_one (g := g) (by omega)
  exact hc (h _ c (by omega))

theorem usedColsGrid_le_of_forall_none {g : Grid} {n : Nat}
    (h : ∀ r c, n ≤ c → cellAt g r c = none) : usedColsGrid g ≤ n := by
  by_contra hh
  obtain ⟨r, hr⟩ := exists_cellAt_usedColsGrid_sub_one (g := g) (by omega)
  exact hr (h r _ (by omega))

/-- The maximum row length of a grid:
`grid.reduce((m, r) => Math.max(m, r.length), 0)` in the save-all handler
(also standing in for the worksheet defined-columns count). -/
def maxColIn (grid : Grid) : Nat :=
  grid.foldl (fun m row => max m row.length) 0

/-- One write of the save-all edit loop (app.js POST /excel/save-all):
`const newVal = row[c] ?? null; if (oldVal !== newVal) cell.value = newVal`. -/
def writeCellStep (data : Grid) (r : Nat) (acc : Grid) (c : Nat) : Grid :=
  if cellAt acc r c ≠ cellAt data r c then setCell acc r c (cellAt data r c) else acc

/-- The save-all edit loop over the provided bounds:
rows `0..R-1`, columns `0..C-1` (0-indexed; the source is 1-indexed). -/
def writeCellLoop (g : Grid) (data : Grid) (R C : Nat) : Grid :=
  (List.range R).foldl (fun acc r => (List.range C).foldl (writeCellStep data r) acc) g

/-- One clear of the save-all shrink loops:
`if (cell.value != null) cell.value = null`. -/
def clearCellStep (r : Nat) (acc : Grid) (c : Nat) : Grid :=
  if (cellAt acc r c).isSome then setCell acc r c none else acc

/-- Clearing a rectangle of cells given explicit row and column index lists,
as each of the two save-all shrink loops does. -/
def clearCells (g : Grid) (rows cols : List Nat) : Grid :=
  rows.foldl (fun acc r => cols.foldl (clearCellStep r) acc) g

theorem cellAt_writeCellStep (data : Grid) (x : Nat) (acc : Grid) (y : Nat) (a b : Nat) :
    cellAt (writeCellStep data x acc y) a b =
      if a = x ∧ b = y then cellAt data x y else cellAt acc a b := by
  unfold writeCellStep
  by_cases h : cellAt acc x y ≠ cellAt data x y
  · rw [if_pos h, cellAt_setCell]
  · rw [if_neg h]
    push_neg at h
    by_cases hab : a = x ∧ b = y
    · obtain ⟨h1, h2⟩ := hab; subst h1; subst h2; rw [if_pos ⟨rfl, rfl⟩, h]
    · rw [if_neg hab]

theorem cellAt_writeRowLoop (data : Grid) (x : Nat) (g : Grid) (C : Nat) (a b : Nat) :
    cellAt ((List.range C).foldl (writeCellStep data x) g) a b =
      if a = x ∧ b < C then cellAt data a b else cellAt g a b := by
  induction C with
  | zero => simp
  | succ C ih =>
    rw [List.range_succ, List.foldl_append]
    simp only [List.foldl_cons, List.foldl_nil]
    rw [cellAt_writeCellStep, ih]
    by_cases hax : a = x
    · subst hax
      by_cases hbc : b = C
      · subst hbc
        rw [if_pos ⟨rfl, rfl⟩, if_pos ⟨rfl, Nat.lt_succ_self _⟩]
      · rw [if_neg (by omega)]
        by_cases hb : b < C
        · rw [if_pos ⟨rfl, hb⟩, if_pos ⟨rfl, by omega⟩]
        · rw [if_neg (by omega), if_neg (by omega)]
    · rw [if_neg (by omega), if_neg (by omega), if_neg (by omega)]

theorem cellAt_writeCellLoop (g data : Grid) (R C : Nat) (a b : Nat) :
    cellAt (writeCellLoop g data R C) a b =
      if a < R ∧ b < C then cellAt data a b else cellAt g a b := by
  unfold writeCellLoop
  induction R with
  | zero => simp
  | succ R ih =>
    rw [List.range_succ, List.foldl_append]
    simp only [List.foldl_cons, List.foldl_nil]
    rw [cellAt_writeRowLoop, ih]
    by_cases hax : a = R
    · subst hax
      by_cases hb : b < C
      · rw [if_pos ⟨rfl, hb⟩, if_pos ⟨Nat.lt_succ_self _, hb⟩]
      · rw [if_neg (by omega), if_neg (by omega), if_neg (by omega)]
    · by_cases hr : a < R ∧ b < C
      · rw [if_neg (by omega), if_pos hr, if_pos ⟨by omega, hr.2⟩]
      · rw [if_neg (by omega), if_neg hr, if_neg (by omega)]

theorem cellAt_clearCellStep (x : Nat) (acc : Grid) (y : Nat) (a b : Nat) :
    cellAt (clearCellStep x acc y) a b =
      if a = x ∧ b = y then none else cellAt acc a b := by
  unfold clearCellStep
  by_cases h : (cellAt acc x y).isSome
  · rw [if_pos h, cellAt_setCell]
  · rw [if_neg h]
    by_cases hab : a = x ∧ b = y
    · obtain ⟨h1, h2⟩ := hab; subst h1; subst h2; rw [if_pos ⟨rfl, rfl⟩]
      exact Option.not_isSome_iff_eq_none.mp h
    · rw [if_neg hab]

theorem cellAt_clearColsFold (x : Nat) (cols : List Nat) (g : Grid) (a b : Nat) :
    cellAt (cols.foldl (clearCellStep x) g) a b =
      if a = x ∧ b ∈ cols then none else cellAt g a b := by
  induction cols generalizing g with
  | nil => simp
  | cons y rest ih =>
    rw [List.foldl_cons, ih, cellAt_clearCellStep]
    simp only [List.mem_cons]
    by_cases hax : a = x
    · subst hax
      by_cases hin : b ∈ rest
      · rw [if_pos ⟨rfl, hin⟩, if_pos ⟨rfl, Or.inr hin⟩]
      · rw [if_neg (by tauto)]
        by_cases hby : b = y
        · rw [if_pos ⟨rfl, hby⟩, if_pos ⟨rfl, Or.inl hby⟩]
        · rw [if_neg (by tauto), if_neg (by tauto)]
    · rw [if_neg (by tauto), if_neg (by tauto), if_neg (by tauto)]

theorem cellAt_clearCells (g : Grid) (rows cols : List Nat) (a b : Nat) :
    cellAt (clearCells g rows cols) a b =
      if a ∈ rows ∧ b ∈ cols then none else cellAt g a b := by
  unfold clearCells
  induction rows generalizing g with
  | nil => simp
  | cons x rest ih =>
    rw [List.foldl_cons, ih, cellAt_clearColsFold]
    simp only [List.mem_cons]
    by_cases hin : a ∈ rest ∧ b ∈ cols
    · rw [if_pos hin, if_pos ⟨Or.inr hin.1, hin.2⟩]
    · rw [if_neg hin]
      by_cases hax : a = x ∧ b ∈ cols
      · rw [if_pos hax, if_pos ⟨Or.inl hax.1, hax.2⟩]
      · rw [if_neg hax, if_neg (by tauto)]

/-- The fallback chain `ws.actualRowCount || ws.rowCount` as read by the
save-all shrink step. -/
def existingMaxRowOf (g : Grid) : Nat :=
  if usedRows g = 0 then g.length else usedRows g

/-- The fallback chain `ws.actualColumnCount || (ws.columns ? ws.columns.length : 0)`
as read by the save-all shrink step. -/
def existingMaxColOf (g : Grid) : Nat :=
  if usedColsGrid g = 0 then maxColIn g else usedColsGrid g

theorem le_existingMaxRowOf (g : Grid) : usedRows g ≤ existingMaxRowOf g := by
  unfold existingMaxRowOf; split <;> omega

theorem le_existingMaxColOf (g : Grid) : usedColsGrid g ≤ existingMaxColOf g := by
  unfold existingMaxColOf; split <;> omega

/-- The save-all mutation applied to one worksheet (app.js POST
/excel/save-all): write the provided grid over its bounds, then run the two
shrink loops — clear rows beyond the new row bound, and clear columns beyond
the new column bound for all rows up to the larger of old/new heights. -/
def saveAllSheet (old data : Grid) : Grid :=
  let g1 := writeCellLoop old data data.length (maxColIn data)
  let eR := existingMaxRowOf g1
  let eC := existingMaxColOf g1
  let g2 := clearCells g1 (List.range' data.length (eR - data.length)) (List.range eC)
  clearCells g2 (List.range (max eR data.length)) (List.range' (maxColIn data) (eC - maxColIn data))

theorem cellAt_saveAll_core (g1 : Grid) (R C eR eC : Nat)
    (heR : usedRows g1 ≤ eR) (heC : usedColsGrid g1 ≤ eC) (a b : Nat) :
    cellAt (clearCells (clearCells g1 (List.range' R (eR - R)) (List.range eC))
        (List.range (max eR R)) (List.range' C (eC - C))) a b =
      if a < R ∧ b < C then cellAt g1 a b else none := by
  have hnoneR : ∀ p q : Nat, eR ≤ p → cellAt g1 p q = none := fun p q hp =>
    cellAt_eq_none_of_usedRows_le (le_trans heR hp) q
  have hnoneC : ∀ p q : Nat, eC ≤ q → cellAt g1 p q = none := fun p q hq =>
    cellAt_eq_none_of_usedColsGrid_le (le_trans heC hq) p
  rw [cellAt_clearCells, cellAt_clearCells]
  simp only [List.mem_range, List.mem_range'_1]
  by_cases h : a < R ∧ b < C
  · rw [if_neg (by omega), if_neg (by omega), if_pos h]
  · rw [if_neg h]
    by_cases h3 : a < max eR R ∧ C ≤ b ∧ b < C + (eC - C)
    · rw [if_pos h3]
    · rw [if_neg h3]
      by_cases h2 : (R ≤ a ∧ a < R + (eR - R)) ∧ b < eC
      · rw [if_pos h2]
      · rw [if_neg h2]
        rcases le_or_lt eR a with hca | hca
        · exact hnoneR a b hca
        · exact hnoneC a b (by omega)

theorem cellAt_saveAllSheet (old data : Grid) (r c : Nat) :
    cellAt (saveAllSheet old data) r c =
      if r < data.length ∧ c < maxColIn data then cellAt data r c else none := by
  simp only [saveAllSheet]
  rw [cellAt_saveAll_core _ _ _ _ _ (le_existingMaxRowOf _) (le_existingMaxColOf _)]
  by_cases h : r < data.length ∧ c < maxColIn data
  · rw [if_pos h, if_pos h, cellAt_writeCellLoop, if_pos h]
  · rw [if_neg h, if_neg h]

/-- The preview assembly (app.js GET /excel/preview): read the used extents
with their fallbacks, clamp to a minimum 1×1 grid, and collect the raw cell
values row by row (`ws.getRow(r).getCell(c).value ?? null`). -/
def previewGrid (g : Grid) : Grid :=
  (List.range (max (existingMaxRowOf g) 1)).map (fun r =>
    (List.range (max (existingMaxColOf g) 1)).map (fun c => cellAt g r c))

theorem length_previewGrid (g : Grid) :
    (previewGrid g).length = max (existingMaxRowOf g) 1 := by
  simp [previewGrid]

theorem length_mem_previewGrid (g : Grid) (row : List Cell)
    (h : row ∈ previewGrid g) : row.length = max (existingMaxColOf g) 1 := by
  unfold previewGrid at h
  obtain ⟨r, _, hrow⟩ := List.mem_map.mp h
  subst hrow
  simp

theorem cellAt_previewGrid (g : Grid) (r c : Nat)
    (hr : r < max (existingMaxRowOf g) 1) (hc : c < max (existingMaxColOf g) 1) :
    cellAt (previewGrid g) r c = cellAt g r c := by
  have hrow : (previewGrid g).getD r [] =
      (List.range (max (existingMaxColOf g) 1)).map (fun d => cellAt g r d) := by
    unfold previewGrid
    rw [List.getD_eq_getElem?_getD, List.getElem?_map, List.getElem?_range hr]
    rfl
  unfold cellAt
  rw [hrow]
  unfold rowCellAt
  rw [List.getD_eq_getElem?_getD, List.getElem?_map, List.getElem?_range hc]
  rfl

theorem usedCols_le_length (row : List Cell) : usedCols row ≤ row.length := by
  induction row with
  | nil => simp [usedCols]
  | cons x rest ih =>
    rw [usedCols]
    simp only [List.length_cons]
    split_ifs <;> omega

theorem usedRows_le_length (g : Grid) : usedRows g ≤ g.length := by
  induction g with
  | nil => simp [usedRows]
  | cons row rest ih =>
    rw [usedRows]
    simp only [List.length_cons]
    split_ifs <;> omega

theorem foldl_max_len (g : Grid) (a : Nat) :
    g.foldl (fun m row => max m row.length) a =
      max a (g.foldl (fun m row => max m row.length) 0) := by
  induction g generalizing a with
  | nil => simp
  | cons row rest ih =>
    simp only [List.foldl_cons]
    rw [ih (max a row.length), ih (max 0 row.length)]
    omega

theorem usedColsGrid_le_maxColIn (g : Grid) : usedColsGrid g ≤ maxColIn g := by
  induction g with
  | nil => simp [usedColsGrid, maxColIn]
  | cons row rest ih =>
    rw [usedColsGrid]
    unfold maxColIn at ih ⊢
    simp only [List.foldl_cons]
    rw [foldl_max_len rest (max 0 row.length)]
    have h1 := usedCols_le_length row
    omega

theorem usedRows_saveAllSheet_eq (old data : Grid)
    (hR : usedRows data = data.length) (hR0 : data.length ≠ 0) :
    usedRows (saveAllSheet old data) = data.length := by
  apply le_antisymm
  · apply usedRows_le_of_forall_none
    intro r c hr
    rw [cellAt_saveAllSheet, if_neg (by omega)]
  · obtain ⟨c, hc⟩ := exists_cellAt_usedRows_sub_one (g := data) (by omega)
    rw [hR] at hc
    have hcc : c < usedColsGrid data := lt_usedColsGrid_of_cellAt_ne_none hc
    have hcm : c < maxColIn data := lt_of_lt_of_le hcc (usedColsGrid_le_maxColIn data)
    have hne : cellAt (saveAllSheet old data) (data.length - 1) c ≠ none := by
      rw [cellAt_saveAllSheet, if_pos ⟨by omega, hcm⟩]
      exact hc
    have := lt_usedRows_of_cellAt_ne_none hne
    omega

theorem usedColsGrid_saveAllSheet_eq (old data : Grid)
    (hC : usedColsGrid data = maxColIn data) (hC0 : maxColIn data ≠ 0) :
    usedColsGrid (saveAllSheet old data) = maxColIn data := by
  apply le_antisymm
  · apply usedColsGrid_le_of_forall_none
    intro r c hcge
    rw [cellAt_saveAllSheet, if_neg (by omega)]
  · obtain ⟨r, hr⟩ := exists_cellAt_usedColsGrid_sub_one (g := data) (by omega)
    rw [hC] at hr
    have hrr : r < usedRows data := lt_usedRows_of_cellAt_ne_none hr
    have hrm : r < data.length := lt_of_lt_of_le hrr (usedRows_le_length data)
    have hne : cellAt (saveAllSheet old data) r (maxColIn data - 1) ≠ none := by
      rw [cellAt_saveAllSheet, if_pos ⟨hrm, by omega⟩]
      exact hr
    have := lt_usedColsGrid_of_cellAt_ne_none hne
    omega

/-- The list-sheets pinning step (app.js GET /excel/sheets): when a latest
audit sheet name exists and occurs in the served list, splice it out of its
position and unshift it to the front. -/
def pinLatest (sheets : List String) (latest : Option String) : List String :=
  match latest with
  | none => sheets
  | some s =>
    if sheets.length > 0 ∧ sheets.contains s then s :: sheets.erase s else sheets

/-- One Fisher–Yates swap `[rest[i], rest[j]] = [rest[j], rest[i]]`. -/
def swapIdx (l : List String) (i j : Nat) : List String :=
  match l[i]?, l[j]? with
  | some a, some b => (l.set i b).set j a
  | _, _ => l

/-- The add-sheet response shuffle (app.js POST /excel/add-sheet): the
Fisher–Yates pass over the non-new sheet names, running `i` from `n-1` down
to `1`, with the random draws supplied by an oracle `rand` (each draw is
clamped to `0..i`, as `Math.floor(Math.random() * (i + 1))` is). -/
def fyLoop (rand : Nat → Nat) : List String → Nat → List String
  | l, 0 => l
  | l, i + 1 => fyLoop rand (swapIdx l (i + 1) (min (rand (i + 1)) (i + 1))) i

/-- The add-sheet response ordering (app.js POST /excel/add-sheet):
`rest = sheetNames.filter(s => s !== name)`, shuffle `rest`, and prepend the
new sheet name. -/
def addSheetReorder (rand : Nat → Nat) (sheetNames : List String) (name : String) :
    List String :=
  let rest := sheetNames.filter (fun s => s != name)
  name :: fyLoop rand rest (rest.length - 1)

theorem cons_set_perm (xs : List String) (k : Nat) (b x : String)
    (h : xs[k]? = some b) : (b :: xs.set k x).Perm (x :: xs) := by
  induction xs generalizing k with
  | nil => simp at h
  | cons y t ih =>
    cases k with
    | zero =>
      rw [List.getElem?_cons_zero] at h
      injection h with h
      subst h
      exact List.Perm.swap x y t
    | succ k =>
      rw [List.getElem?_cons_succ] at h
      have step1 : (b :: y :: t.set k x).Perm (y :: b :: t.set k x) :=
        List.Perm.swap y b (t.set k x)
      have step2 : (y :: b :: t.set k x).Perm (y :: x :: t) := List.Perm.cons y (ih k h)
      have step3 : (y :: x :: t).Perm (x :: y :: t) := List.Perm.swap x y t
      exact (step1.trans step2).trans step3

theorem set_set_perm (l : List String) (i j : Nat) (a b : String)
    (hi : l[i]? = some a) (hj : l[j]? = some b) :
    ((l.set i b).set j a).Perm l := by
  induction l generalizing i j with
  | nil => simp at hi
  | cons y t ih =>
    cases i with
    | zero =>
      rw [List.getElem?_cons_zero] at hi
      injection hi with hi
      subst hi
      cases j with
      | zero =>
        rw [List.getElem?_cons_zero] at hj
        injection hj with hj
        subst hj
        simp
      | succ k =>
        rw [List.getElem?_cons_succ] at hj
        simp only [List.set_cons_zero, List.set_cons_succ]
        exact cons_set_perm t k b y hj
    | succ m =>
      cases j with
      | zero =>
        rw [List.getElem?_cons_zero] at hj
        injection hj with hj
        subst hj
        rw [List.getElem?_cons_succ] at hi
        simp only [List.set_cons_succ, List.set_cons_zero]
        exact cons_set_perm t m a y hi
      | succ k =>
        rw [List.getElem?_cons_succ] at hi hj
        simp only [List.set_cons_succ]
        exact List.Perm.cons y (ih m k hi hj)

theorem swapIdx_perm (l : List String) (i j : Nat) : (swapIdx l i j).Perm l := by
  unfold swapIdx
  cases hi : l[i]? with
  | none => exact List.Perm.refl l
  | some a =>
    cases hj : l[j]? with
    | none => exact List.Perm.refl l
    | some b => exact set_set_perm l i j a b hi hj

theorem fyLoop_perm (rand : Nat → Nat) (l : List String) (n : Nat) :
    (fyLoop rand l n).Perm l := by
  induction n generalizing l with
  | zero => exact List.Perm.refl l
  | succ n ih =>
    rw [fyLoop]
    exact (ih _).trans (swapIdx_perm _ _ _)

/-- JavaScript `String(v)` for a cell scalar. -/
def valueToString : Value → String
  | .str s => s
  | .num n => toString n

/-- Character-level rendering of the global quote-doubling regex replace in
the escaper: every quote is doubled (a global single-character regex replace
is a pointwise expansion). -/
def escQuotes : List Char → List Char
  | [] => []
  | c :: rest => if c = '"' then '"' :: '"' :: escQuotes rest else c :: escQuotes rest

/-- The CSV field escaper `escapeCSV` (app.js GET /excel/export/csv), on the
character list of `String(v)`: wrap in quotes, doubling internal quotes, when
the string contains a quote, comma, newline or carriage return. -/
def escapeCSVChars (s : List Char) : List Char :=
  if s.contains '"' || s.contains ',' || s.contains '\n' || s.contains '\r' then
    '"' :: (escQuotes s ++ ['"'])
  else s

/-- The CSV field escaper on a cell: null/undefined become the empty string. -/
def escapeCSV (v : Cell) : List Char :=
  match v with
  | none => []
  | some v => escapeCSVChars (valueToString v).toList

/-- Modelled from the spec: RFC-4180 parsing of the remainder of a quoted
field (after the opening quote) — a quote inside must be doubled to stand
for itself, an undoubled quote terminates the field, and an unterminated
field is invalid. -/
def parseQuoted : List Char → Option (List Char)
  | [] => none
  | [c] => if c = '"' then some [] else none
  | c :: c2 :: rest2 =>
    if c = '"' then
      if c2 = '"' then (parseQuoted rest2).map (fun t => '"' :: t) else none
    else (parseQuoted (c2 :: rest2)).map (fun t => c :: t)

/-- Modelled from the spec: a standard RFC-4180 CSV field parser — a field
starting with a quote is parsed as a quoted field; any other field is taken
verbatim and must contain no quote, comma or line break. -/
def parseCSVField : List Char → Option (List Char)
  | [] => some []
  | c :: rest =>
    if c = '"' then parseQuoted rest
    else
      if (c :: rest).contains '"' || (c :: rest).contains ',' ||
          (c :: rest).contains '\n' || (c :: rest).contains '\r' then none
      else some (c :: rest)

theorem parseQuoted_escQuotes (s : List Char) :
    parseQuoted (escQuotes s ++ ['"']) = some s := by
  induction s with
  | nil => rfl
  | cons c rest ih =>
    by_cases hc : c = '"'
    · subst hc
      rw [escQuotes, if_pos rfl]
      simp only [List.cons_append]
      rw [parseQuoted, if_pos rfl, if_pos rfl, ih]
      rfl
    · rw [escQuotes, if_neg hc]
      simp only [List.cons_append]
      cases hrest : escQuotes rest ++ ['"'] with
      | nil => simp at hrest
      | cons d tail =>
        rw [parseQuoted, if_neg hc, ← hrest, ih]
        rfl

theorem parseCSVField_escapeCSVChars (s : List Char) :
    parseCSVField (escapeCSVChars s) = some s := by
  unfold escapeCSVChars
  by_cases h : (s.contains '"' || s.contains ',' || s.contains '\n' ||
      s.contains '\r') = true
  · rw [if_pos h]
    rw [parseCSVField, if_pos rfl]
    exact parseQuoted_escQuotes s
  · rw [if_neg h]
    cases s with
    | nil => rfl
    | cons c rest =>
      have hc : ¬ c = '"' := by
        intro hcq
        subst hcq
        simp [List.contains_cons] at h
      rw [parseCSVField, if_neg hc, if_neg h]

/-- A profile row as selected by the resolver middleware
(`plan, user_file_key, role, email, status`); a missing/null column is `none`. -/
structure ProfileRow where
  plan : Option String
  role : Option String
  user_file_key : Option String
  email : Option String
  status : Option String
  deriving DecidableEq, Repr

/-- Result of the `.single()` profile query: a row, or an error (a zero-row
result also yields an error from `.single()`). -/
inductive ProfileLookup
  | ok (row : ProfileRow)
  | err
  deriving DecidableEq, Repr

/-- The server configuration fields relevant here (CONFIG in app.js;
`userFilesRoot` stands for the configured user-files path segment). -/
structure Config where
  EXCEL_FILE_KEY : String
  userFilesRoot : String
  OWNER_EMAIL : String
  deriving DecidableEq, Repr

/-- The authenticated user attached by `requireAuth`. -/
structure AuthUser where
  id : String
  email : String
  deriving DecidableEq, Repr

/-- The synthesized per-user workbook path
`${CONFIG.USER_FILES_PREFIX}/${req.user.id}/uploaded.xlsx`. -/
def userFileKeyFor (cfg : Config) (uid : String) : String :=
  cfg.userFilesRoot ++ "/" ++ uid ++ "/uploaded.xlsx"

/-- The request context set by `attachUserContext` (server/policies.js). -/
structure UserCtx where
  userPlan : String
  userRole : String
  fileKey : String
  deriving DecidableEq, Repr

/-- server/policies.js `attachUserContext`: resolve plan, role and workbook
key from the profile row; on a missing user an anonymous context, on a
lookup error or missing row the free-user fallback. -/
def attachUserContext (cfg : Config) (user : Option AuthUser)
    (lookup : ProfileLookup) : UserCtx :=
  match user with
  | none => ⟨"anon", "anon", cfg.EXCEL_FILE_KEY⟩
  | some u =>
    match lookup with
    | .err => ⟨"free", "user", cfg.EXCEL_FILE_KEY⟩
    | .ok data =>
      ⟨data.plan.getD "free", data.role.getD "user",
        data.user_file_key.getD (userFileKeyFor cfg u.id)⟩

/-- The request context set by `attachUserPlanAndFile` (server/app.js). -/
structure UserCtxFull where
  userPlan : String
  userRole : String
  userEmail : String
  fileKey : String
  deriving DecidableEq, Repr

/-- server/app.js `attachUserPlanAndFile`: as `attachUserContext` but also
resolving the request email. -/
def attachUserPlanAndFile (cfg : Config) (user : Option AuthUser)
    (lookup : ProfileLookup) : UserCtxFull :=
  match user with
  | none => ⟨"anon", "guest", "", cfg.EXCEL_FILE_KEY⟩
  | some u =>
    match lookup with
    | .err => ⟨"free", "user", u.email, cfg.EXCEL_FILE_KEY⟩
    | .ok data =>
      ⟨data.plan.getD "free", data.role.getD "user", data.email.getD u.email,
        data.user_file_key.getD (userFileKeyFor cfg u.id)⟩

/-- A named worksheet of a workbook. -/
structure Worksheet where
  name : String
  grid : Grid
  deriving DecidableEq, Repr

/-- A workbook: the ordered collection of worksheets (the serialized byte
blob is identified with its parsed content; serialization is delegated). -/
structure Workbook where
  worksheets : List Worksheet
  deriving DecidableEq, Repr

/-- The lookup `workbook.getWorksheet(name)`. -/
def getWorksheet (wb : Workbook) (name : String) : Option Worksheet :=
  wb.worksheets.find? (fun ws => ws.name == name)

/-- The removal `workbook.removeWorksheet(existing.id)` for the sheet with
this name. -/
def removeWorksheet (wb : Workbook) (name : String) : Workbook :=
  ⟨wb.worksheets.eraseP (fun ws => ws.name == name)⟩

/-- The sheet-name list `workbook.worksheets.map(ws => ws.name)`. -/
def sheetNamesOf (wb : Workbook) : List String :=
  wb.worksheets.map (fun ws => ws.name)

/-- The call `workbook.addWorksheet(name)` followed by seeding cell A1 with
the marker value New sheet created. -/
def addSeededSheet (wb : Workbook) (name : String) : Workbook :=
  ⟨wb.worksheets ++ [⟨name, setCell [] 0 0 (some (Value.str "New sheet created"))⟩]⟩

/-- Replace the grid of the named worksheet, appending the sheet when absent
(`workbook.getWorksheet(sheet) || workbook.addWorksheet(sheet)` then mutate). -/
def setWorksheetGridOrAdd (wb : Workbook) (name : String) (g : Grid) : Workbook :=
  if wb.worksheets.any (fun ws => ws.name == name) then
    ⟨wb.worksheets.map (fun ws => if ws.name == name then ⟨ws.name, g⟩ else ws)⟩
  else ⟨wb.worksheets ++ [⟨name, g⟩]⟩

/-- The excel bucket: keyed workbook objects. -/
abbrev Storage := List (String × Workbook)

/-- The download `storage.download(key)`. -/
def storageGet (st : Storage) (key : String) : Option Workbook :=
  (st.find? (fun kv => kv.1 == key)).map (fun kv => kv.2)

/-- The upload `storage.upload/update(key, buffer)`: replace or insert the object at
`key` (the external store abstracted as a keyed map update). -/
def storagePut (st : Storage) (key : String) (wb : Workbook) : Storage :=
  if st.any (fun kv => kv.1 == key) then
    st.map (fun kv => if kv.1 == key then (key, wb) else kv)
  else st ++ [(key, wb)]

/-- One `excel_audit` row (the columns the gates and pinning read). -/
structure AuditRow where
  user_id : String
  action : String
  sheet_name : Option String
  created_at : List Char
  deriving DecidableEq, Repr

/-- Lexicographic comparison of ISO-8601 timestamp strings (as character
lists), standing in for the storage layer gte comparison on `created_at`. -/
def charListLe : List Char → List Char → Bool
  | [], _ => true
  | _ :: _, [] => false
  | a :: as, b :: bs => if a = b then charListLe as bs else decide (a < b)

/-- The quota count query: `excel_audit` rows of this user whose action is in
the given set and whose `created_at` is on/after the current UTC day string
(the date part of the current ISO timestamp string). -/
def countAuditToday (rows : List AuditRow) (uid : String) (actions : List String)
    (today : List Char) : Nat :=
  (rows.filter (fun row =>
    row.user_id == uid && actions.contains row.action &&
      charListLe today row.created_at)).length

/-- The mutable backend state a request touches: the excel bucket and the
`excel_audit` table. -/
structure ServerState where
  storage : Storage
  audit : List AuditRow
  deriving DecidableEq, Repr

/-- Request context after `requireAuth` + the context middlewares: identity,
plan/role/email, workbook key, and the request-time date strings. -/
structure ReqCtx where
  uid : String
  userEmail : String
  userPlan : String
  userRole : String
  fileKey : String
  today : List Char
  nowTs : List Char
  deriving DecidableEq, Repr

/-- An HTTP-level outcome: status, optional error message, optional sheets
payload, and the post-request server state. -/
structure Outcome where
  status : Nat
  error : Option String
  sheets : Option (List String)
  state : ServerState
  deriving DecidableEq, Repr

/-- The tail of POST /excel/add-sheet after a successful mutation: upload,
audit insert, and the shuffled response sheet list. -/
def finishAddSheet (rand : Nat → Nat) (ctx : ReqCtx) (st : ServerState)
    (key : String) (wb2 : Workbook) (name : String) : Outcome :=
  ⟨200, none, some (addSheetReorder rand (sheetNamesOf wb2) name),
    ⟨storagePut st.storage key wb2,
      st.audit ++ [⟨ctx.uid, "add_sheet", some name, ctx.nowTs⟩]⟩⟩

/-- app.js POST /excel/add-sheet. -/
def addSheetRoute (cfg : Config) (rand : Nat → Nat) (ctx : ReqCtx)
    (st : ServerState) (name : String) (overwrite : Bool) : Outcome :=
  if name = "" then ⟨400, some "Sheet name is required", none, st⟩
  else if ctx.userPlan = "free" ∧
      3 ≤ countAuditToday st.audit ctx.uid ["add_sheet"] ctx.today then
    ⟨403, some "Free plan limit: max 3 new sheets per day", none, st⟩
  else
    let key := if ctx.userRole = "superadmin" then cfg.EXCEL_FILE_KEY else ctx.fileKey
    if key = "" then ⟨404, some "Workbook key not found", none, st⟩
    else
      let wb := match storageGet st.storage key with
        | none => Workbook.mk [⟨"Sheet1", []⟩]
        | some wb => wb
      match getWorksheet wb name with
      | some _ =>
        if overwrite then finishAddSheet rand ctx st key (addSeededSheet (removeWorksheet wb name) name) name
        else ⟨400, some "Sheet already exists", none, st⟩
      | none => finishAddSheet rand ctx st key (addSeededSheet wb name) name

/-- app.js POST /excel/delete-sheet. -/
def deleteSheetRoute (cfg : Config) (ctx : ReqCtx) (st : ServerState)
    (name : String) : Outcome :=
  if name = "" then ⟨400, some "Sheet name required", none, st⟩
  else if ctx.userPlan = "free" ∧ 3 ≤ countAuditToday st.audit ctx.uid
      ["save_all", "delete_sheet", "edit_sheet", "add_sheet"] ctx.today then
    ⟨403, some "Free plan limit: max 3 edits/saves per day", none, st⟩
  else
    let key := if ctx.userRole = "superadmin" then cfg.EXCEL_FILE_KEY else ctx.fileKey
    if key = "" then ⟨404, some "Workbook key not found", none, st⟩
    else
      match storageGet st.storage key with
      | none => ⟨404, some "Workbook not found", none, st⟩
      | some wb =>
        match getWorksheet wb name with
        | none => ⟨400, some "Sheet not found", none, st⟩
        | some _ =>
          let wb2 := removeWorksheet wb name
          ⟨200, none, some (sheetNamesOf wb2),
            ⟨storagePut st.storage key wb2,
              st.audit ++ [⟨ctx.uid, "delete_sheet", some name, ctx.nowTs⟩]⟩⟩

/-- Outcome of GET /excel/get: status, error, the returned cell value. -/
structure GetCellOutcome where
  status : Nat
  error : Option String
  value : Option Cell
  state : ServerState
  deriving DecidableEq, Repr

/-- app.js GET /excel/get (cell query); the A1-style address is abstracted to
its 0-indexed (row, column) coordinates. -/
def getCellRoute (cfg : Config) (ctx : ReqCtx) (st : ServerState)
    (sheet : String) (cell : Nat × Nat) (scope : Option String) : GetCellOutcome :=
  if sheet = "" then ⟨400, some "Sheet and cell are required", none, st⟩
  else if ctx.userPlan = "free" ∧ 3 ≤ countAuditToday st.audit ctx.uid
      ["get_cell", "save_all", "delete_sheet", "add_sheet"] ctx.today then
    ⟨403, some "Free plan limit: max 3 queries/saves per day", none, st⟩
  else
    let key := if ctx.userRole = "superadmin" ∧ scope = some "master" then
      cfg.EXCEL_FILE_KEY else ctx.fileKey
    if key = "" then ⟨404, some "Workbook key not found", none, st⟩
    else
      match storageGet st.storage key with
      | none => ⟨404, some "Workbook not found", none, st⟩
      | some wb =>
        match getWorksheet wb sheet with
        | none => ⟨400, some "Sheet not found", none, st⟩
        | some ws =>
          ⟨200, none, some (cellAt ws.grid cell.1 cell.2),
            ⟨st.storage, st.audit ++ [⟨ctx.uid, "get_cell", some sheet, ctx.nowTs⟩]⟩⟩

/-- app.js POST /excel/save-all. -/
def saveAllRoute (ctx : ReqCtx) (st : ServerState)
    (sheet : String) (data : Option Grid) : Outcome :=
  match data with
  | none => ⟨400, some "Sheet and data are required", none, st⟩
  | some data =>
    if sheet = "" then ⟨400, some "Sheet and data are required", none, st⟩
    else if ctx.userPlan = "free" ∧
        3 ≤ countAuditToday st.audit ctx.uid ["save_all"] ctx.today then
      ⟨403, some "Free plan limit: max 3 saves per day", none, st⟩
    else if ctx.userPlan = "free" ∧ 5000 < data.length then
      ⟨403, some "Free plan limit: max 5000 rows per save", none, st⟩
    else
      if ctx.fileKey = "" then ⟨404, some "Workbook key not found", none, st⟩
      else
        let wb := match storageGet st.storage ctx.fileKey with
          | none => Workbook.mk []
          | some wb => wb
        let oldGrid := match getWorksheet wb sheet with
          | some ws => ws.grid
          | none => []
        ⟨200, none, none,
          ⟨storagePut st.storage ctx.fileKey
              (setWorksheetGridOrAdd wb sheet (saveAllSheet oldGrid data)),
            st.audit ++ [⟨ctx.uid, "save_all", some sheet, ctx.nowTs⟩]⟩⟩

/-- Outcome of GET /excel/preview. -/
structure PreviewOutcome where
  status : Nat
  error : Option String
  preview : Option Grid
  rows : Option Nat
  cols : Option Nat
  state : ServerState
  deriving DecidableEq, Repr

/-- app.js GET /excel/preview. -/
def previewRoute (ctx : ReqCtx) (st : ServerState) (sheet : String) : PreviewOutcome :=
  if sheet = "" then ⟨400, some "Sheet is required", none, none, none, st⟩
  else if ctx.fileKey = "" then
    ⟨404, some "Workbook key not found", none, none, none, st⟩
  else
    match storageGet st.storage ctx.fileKey with
    | none => ⟨404, some "Workbook not found", none, none, none, st⟩
    | some wb =>
      match getWorksheet wb sheet with
      | none => ⟨400, some "Sheet not found", none, none, none, st⟩
      | some ws =>
        ⟨200, none, some (previewGrid ws.grid),
          some (existingMaxRowOf ws.grid), some (existingMaxColOf ws.grid), st⟩

/-- Outcome of GET /excel/download: status, error, the streamed workbook. -/
structure DownloadOutcome where
  status : Nat
  error : Option String
  body : Option Workbook
  deriving DecidableEq, Repr

/-- app.js GET /excel/download (the premium gate exempts superadmin and the
owner email). -/
def downloadRoute (cfg : Config) (ctx : ReqCtx) (st : ServerState) : DownloadOutcome :=
  if ctx.userPlan = "free" ∧ ctx.userRole ≠ "superadmin" ∧
      ctx.userEmail ≠ cfg.OWNER_EMAIL then
    ⟨403, some "Downloads are available only on premium plans", none⟩
  else
    let key := if ctx.userRole = "superadmin" then cfg.EXCEL_FILE_KEY else ctx.fileKey
    match storageGet st.storage key with
    | none => ⟨404, some "Workbook not found", none⟩
    | some wb => ⟨200, none, some wb⟩

/-- Outcome of GET /excel/export/csv. -/
structure CsvOutcome where
  status : Nat
  error : Option String
  csv : Option (List Char)
  state : ServerState
  deriving DecidableEq, Repr

/-- The CSV body built by the export route: escaped fields joined with
commas, each row terminated by a newline, over the used extents. -/
def csvOfGrid (g : Grid) : List Char :=
  ((List.range (existingMaxRowOf g)).map (fun r =>
    (List.intercalate [','] ((List.range (existingMaxColOf g)).map
      (fun c => escapeCSV (cellAt g r c)))) ++ ['\n'])).flatten

/-- app.js GET /excel/export/csv (blocks the free plan entirely). -/
def exportCsvRoute (ctx : ReqCtx) (st : ServerState) (sheet : String) : CsvOutcome :=
  if sheet = "" then ⟨400, some "Sheet is required", none, st⟩
  else if ctx.userPlan = "free" then
    ⟨403, some "CSV export is available only on premium plans", none, st⟩
  else
    match storageGet st.storage ctx.fileKey with
    | none => ⟨404, some "Workbook not found", none, st⟩
    | some wb =>
      match getWorksheet wb sheet with
      | none => ⟨400, some "Sheet not found", none, st⟩
      | some ws =>
        ⟨200, none, some (csvOfGrid ws.grid),
          ⟨st.storage, st.audit ++ [⟨ctx.uid, "export_csv", some sheet, ctx.nowTs⟩]⟩⟩

/-- Outcome of GET /excel/export/pdf (the PDF layout is delegated to the PDF
library; the document is abstracted as the sheet it renders). -/
structure PdfOutcome where
  status : Nat
  error : Option String
  doc : Option (String × Grid)
  state : ServerState
  deriving DecidableEq, Repr

/-- app.js GET /excel/export/pdf (blocks the free plan entirely). -/
def exportPdfRoute (ctx : ReqCtx) (st : ServerState) (sheet : String) : PdfOutcome :=
  if sheet = "" then ⟨400, some "Sheet is required", none, st⟩
  else if ctx.userPlan = "free" then
    ⟨403, some "PDF export is available only on premium plans", none, st⟩
  else
    match storageGet st.storage ctx.fileKey with
    | none => ⟨404, some "Workbook not found", none, st⟩
    | some wb =>
      match getWorksheet wb sheet with
      | none => ⟨400, some "Sheet not found", none, st⟩
      | some ws =>
        ⟨200, none, some (sheet, ws.grid),
          ⟨st.storage, st.audit ++ [⟨ctx.uid, "export_pdf_single", some sheet, ctx.nowTs⟩]⟩⟩

/-- Outcome of GET /audit/list. -/
structure AuditListOutcome where
  status : Nat
  error : Option String
  entries : Option (List AuditRow)
  deriving DecidableEq, Repr

/-- app.js GET /audit/list (blocks the free plan entirely); ordering and
pagination are abstracted, and non-superadmin, non-owner callers are
force-filtered to their own rows. -/
def auditListRoute (cfg : Config) (ctx : ReqCtx) (st : ServerState) : AuditListOutcome :=
  if ctx.userPlan = "free" then
    ⟨403, some "Audit logs are not available on the free plan", none⟩
  else if ctx.userRole ≠ "superadmin" ∧ ctx.userEmail ≠ cfg.OWNER_EMAIL then
    ⟨200, none, some (st.audit.filter (fun row => row.user_id == ctx.uid))⟩
  else ⟨200, none, some st.audit⟩

/-- The latest-sheet audit query (GET /excel/sheets): the most recent of the
`{save_all, add_sheet, delete_sheet}` row ordered by `created_at`
descending, limit 1 (ties keep the earlier row), then its `sheet_name`. -/
def latestAuditSheet (rows : List AuditRow) (uid : String) : Option String :=
  match (rows.filter (fun row => row.user_id == uid &&
      (["save_all", "add_sheet", "delete_sheet"] : List String).contains row.action)).foldl
    (fun acc row =>
      match acc with
      | none => some row
      | some m => if charListLe row.created_at m.created_at then acc else some row)
    none with
  | none => none
  | some row => row.sheet_name

/-- A row of the `profiles` table as touched by the payment flows. -/
structure Profile where
  email : String
  plan : String
  premium_expires_at : Option String
  deriving DecidableEq, Repr

/-- A row of the `payments` table. -/
structure Payment where
  email : String
  amount : Int
  reference : String
  status : String
  mode : String
  deriving DecidableEq, Repr

/-- The database state the payment webhook touches. -/
structure PayDb where
  profiles : List Profile
  payments : List Payment
  deriving DecidableEq, Repr

/-- The embedded customer of a Paystack event. -/
structure PayCustomer where
  email : String
  deriving DecidableEq, Repr

/-- The `event.data` payload of a Paystack webhook event. -/
structure PayEventData where
  customer : PayCustomer
  amount : Int
  reference : String
  plan_code : Option String
  deriving DecidableEq, Repr

/-- A parsed Paystack webhook event. -/
structure PayEvent where
  event : String
  data : PayEventData
  deriving DecidableEq, Repr

/-- Outcome of POST /payments/webhook. -/
structure WebhookOutcome where
  status : Nat
  db : PayDb
  deriving DecidableEq, Repr

/-- app.js / routes/payments.js POST /payments/webhook.  The HMAC-SHA512
(crypto.createHmac with sha512 and the secret), JSON parsing and wall clock are
external collaborators passed as parameters: `hmacHex secret body` is the
hex digest compared with the `x-paystack-signature` header, `parseJson` the
body parser (a parse failure throws and is caught as a 500), and
`expMonthly`/`expYearly` the two computed expiry timestamps. -/
def paymentsWebhook (hmacHex : String → String → String)
    (parseJson : String → Option PayEvent)
    (secret : String) (monthlyPlanCode : Option String)
    (expMonthly expYearly : String)
    (db : PayDb) (body : String) (signature : Option String) : WebhookOutcome :=
  if signature ≠ some (hmacHex secret body) then ⟨401, db⟩
  else
    match parseJson body with
    | none => ⟨500, db⟩
    | some event =>
      if event.event = "charge.success" then
        let email := event.data.customer.email
        let isMonthly := event.data.plan_code = monthlyPlanCode
        ⟨200,
          ⟨db.profiles.map (fun p =>
              if p.email = email.toLower then
                ⟨p.email, "paid", some (if isMonthly then expMonthly else expYearly)⟩
              else p),
            db.payments ++ [⟨email, event.data.amount, event.data.reference,
              "success", if isMonthly then "monthly" else "one-time"⟩]⟩⟩
      else ⟨200, db⟩

/-- Claim C1, as stated, is false on the code: with a valid credential whose
profile lookup fails, both resolver variants set the workbook key to the
shared master key `CONFIG.EXCEL_FILE_KEY`, not the synthesized per-user
path — shown here at the default configuration. -/
theorem C1_identity_fallback_counterexample :
    (attachUserContext ⟨"master.xlsx", "users", "owner@example.com"⟩
        (some ⟨"u1", "a@b.co"⟩) ProfileLookup.err).fileKey = "master.xlsx" ∧
    (attachUserPlanAndFile ⟨"master.xlsx", "users", "owner@example.com"⟩
        (some ⟨"u1", "a@b.co"⟩) ProfileLookup.err).fileKey = "master.xlsx" ∧
    userFileKeyFor ⟨"master.xlsx", "users", "owner@example.com"⟩ "u1" =
      "users/u1/uploaded.xlsx" ∧
    ("master.xlsx" : String) ≠ "users/u1/uploaded.xlsx" := by
  refine ⟨rfl, rfl, by decide, by decide⟩

/-- Claim C1 (amended): for every request with a valid bearer credential
whose profile lookup fails or returns no row, both identity resolvers
produce role = user and plan = free (never a privileged role), but the
workbook key is the shared master workbook key `CONFIG.EXCEL_FILE_KEY`; the
synthesized per-user path `{users-prefix}/{user_id}/uploaded.xlsx` is used
only when a profile row exists and its `user_file_key` is unset. -/
theorem C1_identity_fallback (cfg : Config) (u : AuthUser) (row : ProfileRow) :
    attachUserContext cfg (some u) ProfileLookup.err =
      ⟨"free", "user", cfg.EXCEL_FILE_KEY⟩ ∧
    attachUserPlanAndFile cfg (some u) ProfileLookup.err =
      ⟨"free", "user", u.email, cfg.EXCEL_FILE_KEY⟩ ∧
    (row.user_file_key = none →
      (attachUserContext cfg (some u) (ProfileLookup.ok row)).fileKey =
        userFileKeyFor cfg u.id) := by
  refine ⟨rfl, rfl, fun h => ?_⟩
  simp [attachUserContext, h]

/-- Claim C1 amended, applied at a concrete configuration and profile row. -/
theorem C1_identity_fallback_witness :
    (attachUserContext ⟨"master.xlsx", "users", "o@x.co"⟩ (some ⟨"u1", "a@b.co"⟩)
        (ProfileLookup.ok ⟨some "free", some "user", none, some "a@b.co", some "active"⟩)).fileKey =
      userFileKeyFor ⟨"master.xlsx", "users", "o@x.co"⟩ "u1" :=
  (C1_identity_fallback ⟨"master.xlsx", "users", "o@x.co"⟩ ⟨"u1", "a@b.co"⟩
    ⟨some "free", some "user", none, some "a@b.co", some "active"⟩).2.2 rfl

/-- Claim C3, as stated, is false on the code: the sheets array returned by
add_sheet does not keep the non-new names in their prior relative order —
the handler shuffles them (Fisher–Yates over `Math.random` draws).  With
draw 0 the prior order A, B comes back as B, A. -/
theorem C3_pin_counterexample :
    addSheetReorder (fun _ => 0) ["A", "B", "N"] "N" = ["N", "B", "A"] ∧
    (["N", "B", "A"] : List String) ≠ ["N", "A", "B"] := by
  refine ⟨by decide, by decide⟩

/-- Claim C3 (amended): in the list_sheets response, when the most recent
audit sheet name (the latest `{add_sheet, delete_sheet, save_all}` entry)
occurs in the served list, it is moved to index 0 and the remaining names
keep their prior relative order (the remainder is a sublist of the original
list); the sheets array returned by add_sheet places the new sheet at index
0 but the remaining names are a random permutation of the other sheet
names, not kept in their prior relative order. -/
theorem C3_pin_latest (sheets : List String) (s : String) (rows : List AuditRow)
    (uid : String) (rand : Nat → Nat) (name : String) :
    (latestAuditSheet rows uid = some s → sheets.contains s = true →
      pinLatest sheets (latestAuditSheet rows uid) = s :: sheets.erase s ∧
      (sheets.erase s).Sublist sheets) ∧
    ((addSheetReorder rand sheets name).head? = some name ∧
      (addSheetReorder rand sheets name).tail.Perm
        (sheets.filter (fun t => t != name))) := by
  constructor
  · intro hlatest hc
    rw [hlatest]
    have hmem : s ∈ sheets := List.elem_iff.mp hc
    refine ⟨?_, List.erase_sublist s sheets⟩
    show (if sheets.length > 0 ∧ sheets.contains s = true then s :: sheets.erase s
      else sheets) = s :: sheets.erase s
    rw [if_pos ⟨List.length_pos.mpr (List.ne_nil_of_mem hmem), hc⟩]
  · constructor
    · rfl
    · show (fyLoop rand (sheets.filter (fun t => t != name)) _).Perm _
      exact fyLoop_perm rand _ _

/-- Claim C3 amended, applied at a concrete audit log and sheet list. -/
theorem C3_pin_latest_witness :
    pinLatest ["A", "B", "C"]
        (latestAuditSheet [⟨"u1", "save_all", some "B", "t1".toList⟩] "u1") =
      ["B", "A", "C"] := by
  have h := (C3_pin_latest ["A", "B", "C"] "B"
    [⟨"u1", "save_all", some "B", "t1".toList⟩] "u1" (fun _ => 0) "X").1
    (by decide) (by decide)
  rw [h.1]
  decide

/-- Claim C9, as stated, is false on the code: the escaper also quote-wraps
values containing a carriage return, so the wrap condition is not exactly
comma / double quote / newline — shown on the value a CR b. -/
theorem C9_csv_escape_counterexample :
    escapeCSV (some (Value.str "a\rb")) = "\"a\rb\"".toList ∧
    ("a\rb".toList.contains ',' || "a\rb".toList.contains '"' ||
      "a\rb".toList.contains '\n') = false := by
  refine ⟨by decide, by decide⟩

/-- Claim C9 (amended): the CSV export escaping maps null/undefined to the
empty string and wraps a value in double quotes with internal double quotes
doubled exactly when its string form contains a comma, a double quote, a
newline, or a carriage return; and for every string value (in particular
one containing a comma, a double quote and a newline), parsing the exported
field with a standard RFC-4180 CSV parser reproduces the original string
exactly. -/
theorem C9_csv_escape_roundtrip (s : List Char) :
    escapeCSV none = [] ∧
    (escapeCSVChars s = '"' :: (escQuotes s ++ ['"']) ↔
      (s.contains '"' || s.contains ',' || s.contains '\n' ||
        s.contains '\r') = true) ∧
    parseCSVField (escapeCSVChars s) = some s := by
  refine ⟨rfl, ⟨?_, ?_⟩, parseCSVField_escapeCSVChars s⟩
  · intro h
    by_contra hn
    rw [escapeCSVChars, if_neg hn] at h
    have hq : s.contains '"' = true := by
      rw [h]
      simp
    rw [hq] at hn
    simp at hn
  · intro h
    rw [escapeCSVChars, if_pos h]

/-- Claim C2, as stated, is false on the code: saving the rectangular 2-by-1
grid whose second row is null over a 2-by-1 sheet yields a subsequent
preview of 1 row, not the grid's 2 rows — the preview is bounded by the used
extent, not by the submitted grid's dimensions. -/
theorem C2_save_all_shrink_counterexample :
    ([[some (Value.num 7)], [none]] : Grid).length = 2 ∧
    (previewGrid (saveAllSheet [[some (Value.num 5)], [some (Value.num 6)]]
        [[some (Value.num 7)], [none]])).length = 1 := by
  refine ⟨rfl, by decide⟩

/-- Claim C2 (amended): for every save_all call with a normalized grid of R
rows and C columns over any prior sheet, every cell outside the new bounds —
in particular every previously non-null cell in rows beyond R or columns
beyond C — is null afterwards, and every cell inside the bounds equals the
submitted grid; and whenever the grid's used extent fills its bounds (its
last row and last column each contain a non-null value, with R, C ≥ 1), the
subsequent preview of the sheet is exactly R-by-C and agrees with the
submitted grid. -/
theorem C2_save_all_shrink (old data : Grid) :
    (∀ r c, data.length ≤ r ∨ maxColIn data ≤ c →
      cellAt (saveAllSheet old data) r c = none) ∧
    (∀ r c, r < data.length → c < maxColIn data →
      cellAt (saveAllSheet old data) r c = cellAt data r c) ∧
    (usedRows data = data.length → usedColsGrid data = maxColIn data →
      data.length ≠ 0 → maxColIn data ≠ 0 →
      (previewGrid (saveAllSheet old data)).length = data.length ∧
      (∀ row ∈ previewGrid (saveAllSheet old data), row.length = maxColIn data) ∧
      (∀ r c, r < data.length → c < maxColIn data →
        cellAt (previewGrid (saveAllSheet old data)) r c = cellAt data r c)) := by
  refine ⟨?_, ?_, ?_⟩
  · intro r c h
    rw [cellAt_saveAllSheet, if_neg (by omega)]
  · intro r c hr hc
    rw [cellAt_saveAllSheet, if_pos ⟨hr, hc⟩]
  · intro h1 h2 h3 h4
    have hur : usedRows (saveAllSheet old data) = data.length :=
      usedRows_saveAllSheet_eq old data h1 h3
    have huc : usedColsGrid (saveAllSheet old data) = maxColIn data :=
      usedColsGrid_saveAllSheet_eq old data h2 h4
    have heR : existingMaxRowOf (saveAllSheet old data) = data.length := by
      unfold existingMaxRowOf
      rw [hur, if_neg h3]
    have heC : existingMaxColOf (saveAllSheet old data) = maxColIn data := by
      unfold existingMaxColOf
      rw [huc, if_neg h4]
    refine ⟨?_, ?_, ?_⟩
    · rw [length_previewGrid, heR]
      omega
    · intro row hrow
      rw [length_mem_previewGrid _ row hrow, heC]
      omega
    · intro r c hr hc
      rw [cellAt_previewGrid _ _ _ (by rw [heR]; omega) (by rw [heC]; omega),
        cellAt_saveAllSheet, if_pos ⟨hr, hc⟩]

/-- Claim C2 amended, applied to a concrete 1-by-1 sheet grown and shrunk by
a concrete 2-by-1 grid: out-of-bounds cells read null and the preview has
the grid's dimensions. -/
theorem C2_save_all_shrink_witness :
    cellAt (saveAllSheet [[some (Value.num 1)]]
        [[some (Value.num 2)], [some (Value.num 3)]]) 0 1 = none ∧
    (previewGrid (saveAllSheet [[some (Value.num 1)]]
        [[some (Value.num 2)], [some (Value.num 3)]])).length = 2 :=
  ⟨(C2_save_all_shrink [[some (Value.num 1)]]
      [[some (Value.num 2)], [some (Value.num 3)]]).1 0 1 (by decide),
    ((C2_save_all_shrink [[some (Value.num 1)]]
      [[some (Value.num 2)], [some (Value.num 3)]]).2.2
      (by decide) (by decide) (by decide) (by decide)).1⟩

/-- Claim C4 (confirmed): for every webhook request whose body's HMAC-SHA512
digest under the gateway secret equals the x-paystack-signature header and
whose parsed event is charge.success, the handler responds 200 and every
profile matching the embedded customer email (lowercased, as the handler
matches it) has plan = paid afterwards; for every request whose digest does
not equal the header, the handler responds 401 and performs no profile or
payment writes. -/
theorem C4_webhook_signature (hmacHex : String → String → String)
    (parseJson : String → Option PayEvent) (secret : String)
    (monthlyPlanCode : Option String) (expMonthly expYearly : String)
    (db : PayDb) (body : String) (signature : Option String) :
    (∀ ev, signature = some (hmacHex secret body) → parseJson body = some ev →
      ev.event = "charge.success" →
      (paymentsWebhook hmacHex parseJson secret monthlyPlanCode expMonthly
          expYearly db body signature).status = 200 ∧
      (∀ p ∈ (paymentsWebhook hmacHex parseJson secret monthlyPlanCode expMonthly
          expYearly db body signature).db.profiles,
        p.email = ev.data.customer.email.toLower → p.plan = "paid")) ∧
    (signature ≠ some (hmacHex secret body) →
      paymentsWebhook hmacHex parseJson secret monthlyPlanCode expMonthly
        expYearly db body signature = ⟨401, db⟩) := by
  constructor
  · intro ev hsig hparse hev
    have hres : paymentsWebhook hmacHex parseJson secret monthlyPlanCode expMonthly
        expYearly db body signature =
        ⟨200, ⟨db.profiles.map (fun p =>
            if p.email = ev.data.customer.email.toLower then
              ⟨p.email, "paid", some (if ev.data.plan_code = monthlyPlanCode
                then expMonthly else expYearly)⟩
            else p),
          db.payments ++ [⟨ev.data.customer.email, ev.data.amount,
            ev.data.reference, "success",
            if ev.data.plan_code = monthlyPlanCode then "monthly" else "one-time"⟩]⟩⟩ := by
      unfold paymentsWebhook
      rw [if_neg (not_not_intro hsig), hparse]
      dsimp only
      rw [if_pos hev]
    rw [hres]
    refine ⟨rfl, ?_⟩
    intro p hp hpe
    obtain ⟨q, hq, hqe⟩ := List.mem_map.mp hp
    by_cases hmatch : q.email = ev.data.customer.email.toLower
    · rw [if_pos hmatch] at hqe
      rw [← hqe]
    · rw [if_neg hmatch] at hqe
      subst hqe
      exact absurd hpe hmatch
  · intro hsig
    unfold paymentsWebhook
    rw [if_pos hsig]

/-- Claim C4, applied to a concrete valid signature and charge.success
event. -/
theorem C4_webhook_signature_witness :
    (paymentsWebhook (fun s b => s ++ b)
        (fun _ => some ⟨"charge.success", ⟨⟨"a@b.co"⟩, 100, "r1", none⟩⟩)
        "K" none "M" "Y" ⟨[⟨"a@b.co", "free", none⟩], []⟩ "B"
        (some "KB")).status = 200 :=
  ((C4_webhook_signature (fun s b => s ++ b)
      (fun _ => some ⟨"charge.success", ⟨⟨"a@b.co"⟩, 100, "r1", none⟩⟩)
      "K" none "M" "Y" ⟨[⟨"a@b.co", "free", none⟩], []⟩ "B" (some "KB")).1
    ⟨"charge.success", ⟨⟨"a@b.co"⟩, 100, "r1", none⟩⟩ (by decide) rfl rfl).1

/-- Claim C10 (confirmed): for every webhook request whose signature is
valid but whose parsed event type is not charge.success, the handler
responds 200 and leaves all state unchanged — no profile update and no
payment insert. -/
theorem C10_webhook_other_events (hmacHex : String → String → String)
    (parseJson : String → Option PayEvent) (secret : String)
    (monthlyPlanCode : Option String) (expMonthly expYearly : String)
    (db : PayDb) (body : String) (signature : Option String) :
    ∀ ev, signature = some (hmacHex secret body) → parseJson body = some ev →
      ev.event ≠ "charge.success" →
      paymentsWebhook hmacHex parseJson secret monthlyPlanCode expMonthly
        expYearly db body signature = ⟨200, db⟩ := by
  intro ev hsig hparse hev
  unfold paymentsWebhook
  rw [if_neg (not_not_intro hsig), hparse]
  dsimp only
  rw [if_neg hev]

/-- Claim C10, applied to a concrete valid signature and a non
charge.success event. -/
theorem C10_webhook_other_events_witness :
    paymentsWebhook (fun s b => s ++ b)
        (fun _ => some ⟨"charge.failed", ⟨⟨"a@b.co"⟩, 100, "r1", none⟩⟩)
        "K" none "M" "Y" ⟨[⟨"a@b.co", "free", none⟩], []⟩ "B" (some "KB") =
      ⟨200, ⟨[⟨"a@b.co", "free", none⟩], []⟩⟩ :=
  C10_webhook_other_events (fun s b => s ++ b)
    (fun _ => some ⟨"charge.failed", ⟨⟨"a@b.co"⟩, 100, "r1", none⟩⟩)
    "K" none "M" "Y" ⟨[⟨"a@b.co", "free", none⟩], []⟩ "B" (some "KB")
    ⟨"charge.failed", ⟨⟨"a@b.co"⟩, 100, "r1", none⟩⟩ (by decide) rfl (by decide)

theorem storageGet_storagePut (st : Storage) (key : String) (wb : Workbook) :
    storageGet (storagePut st key wb) key = some wb := by
  unfold storageGet storagePut
  by_cases h : st.any (fun kv => kv.1 == key)
  · rw [if_pos h]
    induction st with
    | nil => simp at h
    | cons kv rest ih =>
      simp only [List.map_cons]
      by_cases hk : (kv.1 == key) = true
      · rw [if_pos hk,
          @List.find?_cons_of_pos _ (fun kv => kv.1 == key) (key, wb) _ (by simp)]
        simp
      · rw [if_neg hk, @List.find?_cons_of_neg _ (fun kv => kv.1 == key) kv _ hk]
        apply ih
        rw [List.any_cons] at h
        simpa [hk] using h
  · rw [if_neg h]
    rw [List.find?_append]
    have h2 : st.any (fun kv => kv.1 == key) = false := Bool.eq_false_iff.mpr h
    have hnone : st.find? (fun kv => kv.1 == key) = none := by
      rw [List.find?_eq_none]
      intro x hx
      exact List.any_eq_false.mp h2 x hx
    rw [hnone]
    simp [List.find?]

/-- Claim C7 (confirmed): for every add_sheet(name, overwrite=false) call
where a sheet named name already exists in the stored workbook, the route
returns the duplicate-name conflict error (status 400, "Sheet already
exists") and the server state — stored workbook and audit table — is
unchanged (no upload, no audit entry); with overwrite=true the existing
sheet is removed before the new seeded sheet is created, and exactly that
workbook is uploaded, with one add_sheet audit entry appended. -/
theorem C7_add_sheet_conflict (cfg : Config) (rand : Nat → Nat) (ctx : ReqCtx)
    (st : ServerState) (name : String) (wb : Workbook)
    (hname : name ≠ "")
    (hq : ¬(ctx.userPlan = "free" ∧
      3 ≤ countAuditToday st.audit ctx.uid ["add_sheet"] ctx.today))
    (hkey : (if ctx.userRole = "superadmin" then cfg.EXCEL_FILE_KEY
      else ctx.fileKey) ≠ "")
    (hwb : storageGet st.storage
      (if ctx.userRole = "superadmin" then cfg.EXCEL_FILE_KEY else ctx.fileKey) =
      some wb)
    (hex : (getWorksheet wb name).isSome) :
    addSheetRoute cfg rand ctx st name false =
      ⟨400, some "Sheet already exists", none, st⟩ ∧
    (addSheetRoute cfg rand ctx st name true).status = 200 ∧
    storageGet (addSheetRoute cfg rand ctx st name true).state.storage
        (if ctx.userRole = "superadmin" then cfg.EXCEL_FILE_KEY else ctx.fileKey) =
      some (addSeededSheet (removeWorksheet wb name) name) ∧
    (addSheetRoute cfg rand ctx st name true).state.audit =
      st.audit ++ [⟨ctx.uid, "add_sheet", some name, ctx.nowTs⟩] := by
  obtain ⟨ws0, hws0⟩ := Option.isSome_iff_exists.mp hex
  have hroute : ∀ ow : Bool, addSheetRoute cfg rand ctx st name ow =
      if ow then
        finishAddSheet rand ctx st
          (if ctx.userRole = "superadmin" then cfg.EXCEL_FILE_KEY else ctx.fileKey)
          (addSeededSheet (removeWorksheet wb name) name) name
      else ⟨400, some "Sheet already exists", none, st⟩ := by
    intro ow
    unfold addSheetRoute
    rw [if_neg hname, if_neg hq]
    dsimp only
    rw [if_neg hkey, hwb]
    dsimp only
    rw [hws0]
  refine ⟨?_, ?_, ?_, ?_⟩
  · rw [hroute false]
    rfl
  · rw [hroute true]
    rfl
  · rw [hroute true]
    exact storageGet_storagePut st.storage _ _
  · rw [hroute true]
    rfl

/-- Claim C7, applied to a concrete stored workbook with an existing sheet
named S. -/
theorem C7_add_sheet_conflict_witness :
    addSheetRoute ⟨"master.xlsx", "users", "o@x.co"⟩ (fun _ => 0)
        ⟨"u1", "a@b.co", "paid", "user", "k1", "d".toList, "t".toList⟩
        ⟨[("k1", ⟨[⟨"S", [[some (Value.num 1)]]⟩]⟩)], []⟩ "S" false =
      ⟨400, some "Sheet already exists", none,
        ⟨[("k1", ⟨[⟨"S", [[some (Value.num 1)]]⟩]⟩)], []⟩⟩ :=
  (C7_add_sheet_conflict ⟨"master.xlsx", "users", "o@x.co"⟩ (fun _ => 0)
    ⟨"u1", "a@b.co", "paid", "user", "k1", "d".toList, "t".toList⟩
    ⟨[("k1", ⟨[⟨"S", [[some (Value.num 1)]]⟩]⟩)], []⟩ "S"
    ⟨[⟨"S", [[some (Value.num 1)]]⟩]⟩
    (by decide) (by decide) (by decide) (by decide) (by decide)).1

/-- Claim C8, as stated, is false on the code: with the workbook object
missing from storage, add_sheet does not return a 404 — it builds a fresh
workbook (a default Sheet1 plus the new seeded sheet), uploads it in place
of the missing one, and responds with success. -/
theorem C8_missing_workbook_counterexample :
    (addSheetRoute ⟨"master.xlsx", "users", "o@x.co"⟩ (fun _ => 0)
        ⟨"u1", "a@b.co", "paid", "user", "k1", "d".toList, "t".toList⟩
        ⟨[], []⟩ "New" false).status = 200 ∧
    storageGet (addSheetRoute ⟨"master.xlsx", "users", "o@x.co"⟩ (fun _ => 0)
        ⟨"u1", "a@b.co", "paid", "user", "k1", "d".toList, "t".toList⟩
        ⟨[], []⟩ "New" false).state.storage "k1" =
      some (addSeededSheet ⟨[⟨"Sheet1", []⟩]⟩ "New") := by
  refine ⟨by decide, by decide⟩

/-- Claim C8 (amended): on a storage download failure or missing workbook,
delete_sheet, get_cell and preview return a not-found (404) error with the
server state unchanged — before any audit write; add_sheet and save_all,
however, do not short-circuit: they create a fresh workbook in place of the
missing one (add_sheet a default Sheet1 plus the new seeded sheet, save_all
a workbook holding only the saved sheet) and respond with success. -/
theorem C8_missing_workbook (cfg : Config) (rand : Nat → Nat) (ctx : ReqCtx)
    (st : ServerState) (name sheet : String) (data : Grid) (cell : Nat × Nat)
    (scope : Option String)
    (hname : name ≠ "") (hn1 : name ≠ "Sheet1") (hsheet : sheet ≠ "")
    (hkey : ctx.fileKey ≠ "") (hrole : ctx.userRole ≠ "superadmin")
    (hplan : ctx.userPlan ≠ "free")
    (hmiss : storageGet st.storage ctx.fileKey = none) :
    deleteSheetRoute cfg ctx st name = ⟨404, some "Workbook not found", none, st⟩ ∧
    getCellRoute cfg ctx st sheet cell scope =
      ⟨404, some "Workbook not found", none, st⟩ ∧
    previewRoute ctx st sheet =
      ⟨404, some "Workbook not found", none, none, none, st⟩ ∧
    (addSheetRoute cfg rand ctx st name false).status = 200 ∧
    storageGet (addSheetRoute cfg rand ctx st name false).state.storage ctx.fileKey =
      some (addSeededSheet ⟨[⟨"Sheet1", []⟩]⟩ name) ∧
    (saveAllRoute ctx st sheet (some data)).status = 200 ∧
    storageGet (saveAllRoute ctx st sheet (some data)).state.storage ctx.fileKey =
      some ⟨[⟨sheet, saveAllSheet [] data⟩]⟩ := by
  have hn1b : (("Sheet1" : String) == name) = false := by
    rw [beq_eq_false_iff_ne]
    exact fun hh => hn1 hh.symm
  have hws : getWorksheet ⟨[⟨"Sheet1", []⟩]⟩ name = none := by
    unfold getWorksheet
    rw [List.find?_cons_of_neg _ (by simpa using hn1b), List.find?_nil]
  have haddrw : addSheetRoute cfg rand ctx st name false =
      finishAddSheet rand ctx st ctx.fileKey
        (addSeededSheet ⟨[⟨"Sheet1", []⟩]⟩ name) name := by
    unfold addSheetRoute
    rw [if_neg hname, if_neg (fun hc => hplan hc.1)]
    dsimp only
    rw [if_neg hrole, if_neg hkey, hmiss]
    dsimp only
    rw [hws]
  have hsaverw : saveAllRoute ctx st sheet (some data) =
      ⟨200, none, none,
        ⟨storagePut st.storage ctx.fileKey ⟨[⟨sheet, saveAllSheet [] data⟩]⟩,
          st.audit ++ [⟨ctx.uid, "save_all", some sheet, ctx.nowTs⟩]⟩⟩ := by
    unfold saveAllRoute
    dsimp only
    rw [if_neg hsheet, if_neg (fun hc => hplan hc.1), if_neg (fun hc => hplan hc.1),
      if_neg hkey, hmiss]
    dsimp only
    rw [show getWorksheet ⟨[]⟩ sheet = none from rfl]
    dsimp only
    unfold setWorksheetGridOrAdd
    rw [if_neg (by simp)]
    rfl
  refine ⟨?_, ?_, ?_, ?_, ?_, ?_, ?_⟩
  · unfold deleteSheetRoute
    rw [if_neg hname, if_neg (fun hc => hplan hc.1)]
    dsimp only
    rw [if_neg hrole, if_neg hkey, hmiss]
  · unfold getCellRoute
    rw [if_neg hsheet, if_neg (fun hc => hplan hc.1)]
    dsimp only
    have hsel : ¬(ctx.userRole = "superadmin" ∧ scope = some "master") :=
      fun hc => hrole hc.1
    rw [if_neg hsel, if_neg hkey, hmiss]
  · unfold previewRoute
    rw [if_neg hsheet, if_neg hkey, hmiss]
  · rw [haddrw]
    rfl
  · rw [haddrw]
    exact storageGet_storagePut st.storage _ _
  · rw [hsaverw]
  · rw [hsaverw]
    exact storageGet_storagePut st.storage _ _

/-- Claim C8 amended, applied to a concrete context with an empty storage
bucket. -/
theorem C8_missing_workbook_witness :
    deleteSheetRoute ⟨"master.xlsx", "users", "o@x.co"⟩
        ⟨"u1", "a@b.co", "paid", "user", "k1", "d".toList, "t".toList⟩
        ⟨[], []⟩ "S" = ⟨404, some "Workbook not found", none, ⟨[], []⟩⟩ :=
  (C8_missing_workbook ⟨"master.xlsx", "users", "o@x.co"⟩ (fun _ => 0)
    ⟨"u1", "a@b.co", "paid", "user", "k1", "d".toList, "t".toList⟩ ⟨[], []⟩
    "S" "T" [] (0, 0) none (by decide) (by decide) (by decide) (by decide)
    (by decide) (by decide) rfl).1

/-- Claim C6, as stated, is false on the code: a free-plan superadmin whose
email is even the owner email is denied CSV export — the CSV, PDF and audit
gates block the free plan outright with no superadmin/owner exemption. -/
theorem C6_premium_gate_counterexample :
    exportCsvRoute ⟨"u1", "o@x.co", "free", "superadmin", "k1",
        "d".toList, "t".toList⟩ ⟨[], []⟩ "S" =
      ⟨403, some "CSV export is available only on premium plans", none,
        ⟨[], []⟩⟩ := by
  decide

/-- Claim C6 (amended): the download route denies free-plan callers with a
403 unless they are superadmin or the owner email — such exempt callers are
never denied by that plan gate — but CSV export, PDF export and the audit
view deny every free-plan caller outright, regardless of role or owner
email. -/
theorem C6_premium_gate (cfg : Config) (ctx : ReqCtx) (st : ServerState)
    (sheet : String) (hplan : ctx.userPlan = "free") (hsheet : sheet ≠ "") :
    exportCsvRoute ctx st sheet =
      ⟨403, some "CSV export is available only on premium plans", none, st⟩ ∧
    exportPdfRoute ctx st sheet =
      ⟨403, some "PDF export is available only on premium plans", none, st⟩ ∧
    auditListRoute cfg ctx st =
      ⟨403, some "Audit logs are not available on the free plan", none⟩ ∧
    (ctx.userRole = "superadmin" ∨ ctx.userEmail = cfg.OWNER_EMAIL →
      (downloadRoute cfg ctx st).error ≠
        some "Downloads are available only on premium plans" ∧
      (downloadRoute cfg ctx st).status ≠ 403) ∧
    (ctx.userRole ≠ "superadmin" → ctx.userEmail ≠ cfg.OWNER_EMAIL →
      downloadRoute cfg ctx st =
        ⟨403, some "Downloads are available only on premium plans", none⟩) := by
  refine ⟨?_, ?_, ?_, ?_, ?_⟩
  · unfold exportCsvRoute
    rw [if_neg hsheet, if_pos hplan]
  · unfold exportPdfRoute
    rw [if_neg hsheet, if_pos hplan]
  · unfold auditListRoute
    rw [if_pos hplan]
  · intro hexempt
    have hgate : ¬(ctx.userPlan = "free" ∧ ctx.userRole ≠ "superadmin" ∧
        ctx.userEmail ≠ cfg.OWNER_EMAIL) := by
      rcases hexempt with h | h
      · exact fun hc => hc.2.1 h
      · exact fun hc => hc.2.2 h
    cases hwb : storageGet st.storage
        (if ctx.userRole = "superadmin" then cfg.EXCEL_FILE_KEY else ctx.fileKey) with
    | none =>
      have hres : downloadRoute cfg ctx st = ⟨404, some "Workbook not found", none⟩ := by
        unfold downloadRoute
        rw [if_neg hgate]
        dsimp only
        rw [hwb]
      rw [hres]
      exact ⟨by simp, by simp⟩
    | some wb =>
      have hres : downloadRoute cfg ctx st = ⟨200, none, some wb⟩ := by
        unfold downloadRoute
        rw [if_neg hgate]
        dsimp only
        rw [hwb]
      rw [hres]
      exact ⟨by simp, by simp⟩
  · intro hrole howner
    unfold downloadRoute
    rw [if_pos ⟨hplan, hrole, howner⟩]

/-- Claim C6 amended, applied to a concrete free-plan owner-email caller. -/
theorem C6_premium_gate_witness :
    exportPdfRoute ⟨"u1", "o@x.co", "free", "user", "k1", "d".toList, "t".toList⟩
        ⟨[], []⟩ "S" =
      ⟨403, some "PDF export is available only on premium plans", none,
        ⟨[], []⟩⟩ :=
  (C6_premium_gate ⟨"master.xlsx", "users", "o@x.co"⟩
    ⟨"u1", "o@x.co", "free", "user", "k1", "d".toList, "t".toList⟩ ⟨[], []⟩
    "S" rfl (by decide)).2.1

/-- Claim C5, as stated, is false on the code: the gates do not share one
combined action set.  With exactly 3 get_cell audit entries today — a
combined {add_sheet, delete_sheet, save_all, get_cell} count of 3, at the
claimed ceiling — the 4th quota-shared call (an add_sheet) is not denied:
the add_sheet gate counts only add_sheet entries. -/
theorem C5_quota_counterexample :
    countAuditToday
      [⟨"u1", "get_cell", some "S", "2026-10-11T01:00:00Z".toList⟩,
        ⟨"u1", "get_cell", some "S", "2026-10-11T02:00:00Z".toList⟩,
        ⟨"u1", "get_cell", some "S", "2026-10-11T03:00:00Z".toList⟩]
      "u1" ["add_sheet", "delete_sheet", "save_all", "get_cell"]
      "2026-10-11".toList = 3 ∧
    (addSheetRoute ⟨"master.xlsx", "users", "o@x.co"⟩ (fun _ => 0)
        ⟨"u1", "a@b.co", "free", "user", "k1", "2026-10-11".toList,
          "2026-10-11T04:00:00Z".toList⟩
        ⟨[("k1", ⟨[⟨"S", [[some (Value.num 1)]]⟩]⟩)],
          [⟨"u1", "get_cell", some "S", "2026-10-11T01:00:00Z".toList⟩,
            ⟨"u1", "get_cell", some "S", "2026-10-11T02:00:00Z".toList⟩,
            ⟨"u1", "get_cell", some "S", "2026-10-11T03:00:00Z".toList⟩]⟩
        "New" false).status = 200 := by
  refine ⟨by decide, by decide⟩

/-- Claim C5 (amended): each free-plan gate counts its own per-route action
set over the current UTC day and denies with its quota error exactly when
that count has reached 3: add_sheet counts only add_sheet entries; save_all
counts only save_all entries; delete_sheet counts {save_all, delete_sheet,
edit_sheet, add_sheet}; get_cell counts {get_cell, save_all, delete_sheet,
add_sheet}. -/
theorem C5_quota_gates (cfg : Config) (rand : Nat → Nat) (ctx : ReqCtx)
    (st : ServerState) (name sheet : String) (data : Grid) (cell : Nat × Nat)
    (scope : Option String)
    (hplan : ctx.userPlan = "free") (hname : name ≠ "") (hsheet : sheet ≠ "") :
    ((addSheetRoute cfg rand ctx st name false).error =
        some "Free plan limit: max 3 new sheets per day" ↔
      3 ≤ countAuditToday st.audit ctx.uid ["add_sheet"] ctx.today) ∧
    ((deleteSheetRoute cfg ctx st name).error =
        some "Free plan limit: max 3 edits/saves per day" ↔
      3 ≤ countAuditToday st.audit ctx.uid
        ["save_all", "delete_sheet", "edit_sheet", "add_sheet"] ctx.today) ∧
    ((getCellRoute cfg ctx st sheet cell scope).error =
        some "Free plan limit: max 3 queries/saves per day" ↔
      3 ≤ countAuditToday st.audit ctx.uid
        ["get_cell", "save_all", "delete_sheet", "add_sheet"] ctx.today) ∧
    ((saveAllRoute ctx st sheet (some data)).error =
        some "Free plan limit: max 3 saves per day" ↔
      3 ≤ countAuditToday st.audit ctx.uid ["save_all"] ctx.today) := by
  refine ⟨⟨?_, ?_⟩, ⟨?_, ?_⟩, ⟨?_, ?_⟩, ⟨?_, ?_⟩⟩
  · intro habs
    by_contra hq
    unfold addSheetRoute at habs
    rw [if_neg hname, if_neg (fun hc => hq hc.2)] at habs
    dsimp only at habs
    repeat' split at habs
    all_goals simp [finishAddSheet] at habs
  · intro hq
    unfold addSheetRoute
    rw [if_neg hname, if_pos ⟨hplan, hq⟩]
  · intro habs
    by_contra hq
    unfold deleteSheetRoute at habs
    rw [if_neg hname, if_neg (fun hc => hq hc.2)] at habs
    dsimp only at habs
    repeat' split at habs
    all_goals simp at habs
  · intro hq
    unfold deleteSheetRoute
    rw [if_neg hname, if_pos ⟨hplan, hq⟩]
  · intro habs
    by_contra hq
    unfold getCellRoute at habs
    rw [if_neg hsheet, if_neg (fun hc => hq hc.2)] at habs
    dsimp only at habs
    repeat' split at habs
    all_goals simp at habs
  · intro hq
    unfold getCellRoute
    rw [if_neg hsheet, if_pos ⟨hplan, hq⟩]
  · intro habs
    by_contra hq
    unfold saveAllRoute at habs
    dsimp only at habs
    rw [if_neg hsheet, if_neg (fun hc => hq hc.2)] at habs
    repeat' split at habs
    all_goals simp at habs
  · intro hq
    unfold saveAllRoute
    dsimp only
    rw [if_neg hsheet, if_pos ⟨hplan, hq⟩]

/-- Claim C5 amended, applied to a concrete free-plan context with three
save_all entries today. -/
theorem C5_quota_gates_witness :
    (saveAllRoute ⟨"u1", "a@b.co", "free", "user", "k1", "2026-10-11".toList,
        "2026-10-11T04:00:00Z".toList⟩
      ⟨[],
        [⟨"u1", "save_all", some "S", "2026-10-11T01:00:00Z".toList⟩,
          ⟨"u1", "save_all", some "S", "2026-10-11T02:00:00Z".toList⟩,
          ⟨"u1", "save_all", some "S", "2026-10-11T03:00:00Z".toList⟩]⟩
      "S" (some [[some (Value.num 1)]])).error =
      some "Free plan limit: max 3 saves per day" :=
  ((C5_quota_gates ⟨"master.xlsx", "users", "o@x.co"⟩ (fun _ => 0)
      ⟨"u1", "a@b.co", "free", "user", "k1", "2026-10-11".toList,
        "2026-10-11T04:00:00Z".toList⟩
      ⟨[],
        [⟨"u1", "save_all", some "S", "2026-10-11T01:00:00Z".toList⟩,
          ⟨"u1", "save_all", some "S", "2026-10-11T02:00:00Z".toList⟩,
          ⟨"u1", "save_all", some "S", "2026-10-11T03:00:00Z".toList⟩]⟩
      "N" "S" [] (0, 0) none rfl (by decide) (by decide)).2.2.2).mpr (by decide)
